import Mathlib

/-!
Verification development for the paintshop editor's compositing core.

The definitions below are shallow embeddings of the client-side raster and
layer logic of the repository: the pixel math of `imageUtils`
(mask algebra, masked extraction and removal, export compositing), the
zustand layer store (`addLayer`, `updateLayer`, `reorderLayers`), the layer
panel reorder handlers, and the canvas drawing overlay (coordinate mapping
and stroke commit).  Encoded rasters (base64 PNG strings) are modelled at
the decoded level: a raster is its dimensions together with a pixel
function; decoding itself is abstracted as an explicit parameter where a
function consumes encoded bytes.  Machine numbers are modelled as `Nat`,
`Int` and `Rat`; the canvas byte domain 0..255 is kept explicit, with
round-to-nearest division written out where the browser rounds.
-/

namespace Paintshop

/-- RGBA pixel, one natural number per channel (bytes are 0..255 in any
raster produced by the browser; the model does not bake the bound in). -/
structure Pixel where
  r : Nat
  g : Nat
  b : Nat
  a : Nat
deriving DecidableEq

/-- Decoded raster: explicit dimensions plus a pixel function.  This is the
in-memory `ImageData` view of an image; `data[4*(y*width+x)]` of the flat
JS array is `(pix x y).r`, and so on for the other channels. -/
structure Raster where
  width : Nat
  height : Nat
  pix : Nat → Nat → Pixel

/-- Round-to-nearest of `n / 255`, the rounding the byte-domain pixel math
uses when a product of two bytes is scaled back to a byte. -/
def div255r (n : Nat) : Nat := (n + 127) / 255

/-- Round-to-nearest of `x * y / 255` for byte inputs. -/
def mulDiv255 (x y : Nat) : Nat := div255r (x * y)

/-- Embedding of `maskUnion` (imageUtils): per pixel, `val = Math.max(pixels1[i], pixels2[i])`
over the red channels, written to R, G and B with alpha forced to 255.  The
result `ImageData` is created from the first mask's dimensions.  The JS loop
walks both flat arrays at the same index, which matches this pointwise
definition under the equal-dimensions caller contract. -/
def maskUnion (m1 m2 : Raster) : Raster :=
  { width := m1.width, height := m1.height,
    pix := fun x y =>
      let v := max (m1.pix x y).r (m2.pix x y).r
      { r := v, g := v, b := v, a := 255 } }

/-- Embedding of `maskIntersection` (imageUtils): per pixel `Math.min` of the
red channels, single-channel output with alpha 255. -/
def maskIntersection (m1 m2 : Raster) : Raster :=
  { width := m1.width, height := m1.height,
    pix := fun x y =>
      let v := min (m1.pix x y).r (m2.pix x y).r
      { r := v, g := v, b := v, a := 255 } }

/-- Embedding of `maskSubtract` (imageUtils): per pixel
`Math.max(0, pixels1[i] - pixels2[i])` over the red channels (JS subtraction
can go negative, hence the explicit clamp), single-channel output with
alpha 255. -/
def maskSubtract (m1 m2 : Raster) : Raster :=
  { width := m1.width, height := m1.height,
    pix := fun x y =>
      let v := (max 0 (((m1.pix x y).r : Int) - ((m2.pix x y).r : Int))).toNat
      { r := v, g := v, b := v, a := 255 } }

/-- Embedding of `maskXor` (imageUtils): per pixel
`Math.abs(pixels1[i] - pixels2[i])` over the red channels, single-channel
output with alpha 255. -/
def maskXor (m1 m2 : Raster) : Raster :=
  { width := m1.width, height := m1.height,
    pix := fun x y =>
      let v := (((m1.pix x y).r : Int) - ((m2.pix x y).r : Int)).natAbs
      { r := v, g := v, b := v, a := 255 } }

/-- Embedding of `invertMask` (imageUtils): `255 - value` on R, G and B,
alpha untouched. -/
def invertMask (m : Raster) : Raster :=
  { width := m.width, height := m.height,
    pix := fun x y =>
      let p := m.pix x y
      { r := 255 - p.r, g := 255 - p.g, b := 255 - p.b, a := p.a } }

/-- Canvas `destination-in` compositing of a source image onto a destination:
the destination's colour channels are kept and its alpha is multiplied by
the source's alpha (normalised), rounded to the nearest byte.  This is the
effect of `ctx.globalCompositeOperation = destination-in` followed by
`drawImage` at identical dimensions. -/
def destinationIn (dst src : Raster) : Raster :=
  { width := dst.width, height := dst.height,
    pix := fun x y =>
      let d := dst.pix x y
      let s := src.pix x y
      { r := d.r, g := d.g, b := d.b, a := mulDiv255 d.a s.a } }

/-- Canvas `destination-out` compositing: destination colours kept, alpha
multiplied by one minus the source alpha (normalised), rounded to the
nearest byte. -/
def destinationOut (dst src : Raster) : Raster :=
  { width := dst.width, height := dst.height,
    pix := fun x y =>
      let d := dst.pix x y
      let s := src.pix x y
      { r := d.r, g := d.g, b := d.b, a := mulDiv255 d.a (255 - s.a) } }

/-- Embedding of `applyMaskToImage` (imageUtils): optionally invert the mask
first, then draw the image and composite the mask with `destination-in`.
The `drawImage` call scales the mask to the image's size; at equal
dimensions, which is the regime of the claims, that is the identity. -/
def applyMaskToImage (image mask : Raster) (invert : Bool) : Raster :=
  destinationIn image (if invert then invertMask mask else mask)

/-- Embedding of `removeMaskFromImage` (imageUtils): draw the image, then
composite the mask with `destination-out`. -/
def removeMaskFromImage (image mask : Raster) : Raster :=
  destinationOut image mask

/-- Lookup table of `combineMasks`: the object literal mapping operation
names to the pairwise mask functions; unknown names give `none`. -/
def maskOperationFn (op : String) : Option (Raster → Raster → Raster) :=
  match op with
  | "union" => some maskUnion
  | "intersection" => some maskIntersection
  | "subtract" => some maskSubtract
  | "xor" => some maskXor
  | _ => none

/-- Embedding of `combineMasks` (imageUtils).  The source works on base64
strings; here masks are decoded rasters.  `return null` on the empty list is
`Except.ok none`, returning the single mask unchanged is `Except.ok (some m)`,
the `throw new Error(...)` for an unknown operation is `Except.error`, and
the sequential loop is a left fold seeded with the first mask. -/
def combineMasks (masks : List Raster) (operation : String) : Except String (Option Raster) :=
  match masks with
  | [] => Except.ok none
  | [m] => Except.ok (some m)
  | m :: rest =>
    match maskOperationFn operation with
    | none => Except.error ("Unknown mask operation: " ++ operation)
    | some f => Except.ok (some (rest.foldl f m))

/-- Single-channel mask representation from the spec: R = G = B and A = 255
at every pixel. -/
def singleChannel (m : Raster) : Prop :=
  ∀ x y, (m.pix x y).r = (m.pix x y).g ∧ (m.pix x y).r = (m.pix x y).b ∧ (m.pix x y).a = 255

/-- Layer record of the editor store.  `image_base64` is the encoded raster
(`none` models a JS `null`/absent field, `some ""` the empty string, which is
falsy in JS); `order` is `none` when the caller supplied no order field. -/
structure Layer where
  id : String
  name : String
  type : String
  image_base64 : Option String
  visible : Bool
  opacity : ℚ
  blend_mode : String
  order : Option Int
deriving DecidableEq

/-- Slice of the zustand editor store that the layer operations touch. -/
structure EditorState where
  layers : List Layer
  activeLayerId : Option String
  hasUnsavedChanges : Bool
deriving DecidableEq

/-- Embedding of the store's `addLayer`: append the layer object as given,
make it the active layer, mark unsaved changes.  No field of the layer is
altered by the store. -/
def addLayer (st : EditorState) (layer : Layer) : EditorState :=
  { st with layers := st.layers ++ [layer],
            activeLayerId := some layer.id,
            hasUnsavedChanges := true }

/-- Embedding of the store's `updateLayer` at the `{ order: v }` patch shape
used by the layer panel: merge the new order into the layer with the given
id, leave every other layer untouched (unknown ids are a no-op). -/
def updateLayerOrder (ls : List Layer) (lid : String) (v : Option Int) : List Layer :=
  ls.map fun l => if l.id = lid then { l with order := v } else l

/-- Embedding of the store's `updateLayer` at the `{ image_base64: v }` patch
shape used by the eraser commit. -/
def updateLayerImage (ls : List Layer) (lid : String) (img : Option String) : List Layer :=
  ls.map fun l => if l.id = lid then { l with image_base64 := img } else l

/-- Numeric order value the JS sort comparators read (`l.order`); layers
carry an order in every state these comparators run on. -/
def layerOrderVal (l : Layer) : Int := l.order.getD 0

/-- Stable insertion into a descending-order-sorted list: the inserted
element precedes the first strictly smaller order and also precedes equal
orders, matching JS stable `sort((a, b) => b.order - a.order)`. -/
def insertDesc (x : Layer) : List Layer → List Layer
  | [] => [x]
  | y :: ys => if layerOrderVal y ≤ layerOrderVal x then x :: y :: ys else y :: insertDesc x ys

/-- Stable descending sort by `order`, as the layer panel's
`[...layers].sort((a, b) => b.order - a.order)`. -/
def sortDesc : List Layer → List Layer
  | [] => []
  | x :: xs => insertDesc x (sortDesc xs)

/-- Stable insertion into an ascending-order-sorted list, matching JS stable
`sort((a, b) => a.order - b.order)`. -/
def insertAsc (x : Layer) : List Layer → List Layer
  | [] => [x]
  | y :: ys => if layerOrderVal x ≤ layerOrderVal y then x :: y :: ys else y :: insertAsc x ys

/-- Stable ascending sort by `order`, as the export path's
`sort((a, b) => a.order - b.order)`. -/
def sortAsc : List Layer → List Layer
  | [] => []
  | x :: xs => insertAsc x (sortAsc xs)

/-- JS `array.splice(i, 1)`: the removed element (if any) and the remaining
list. -/
def removeAt {α : Type} : Nat → List α → Option α × List α
  | _, [] => (none, [])
  | 0, x :: xs => (some x, xs)
  | n + 1, x :: xs => ((removeAt n xs).1, x :: (removeAt n xs).2)

/-- JS `array.splice(j, 0, x)`: insert `x` at position `j`, clamping to the
end of the list when `j` exceeds its length. -/
def insertAt {α : Type} : Nat → α → List α → List α
  | 0, x, ls => x :: ls
  | _ + 1, x, [] => [x]
  | n + 1, x, y :: ys => y :: insertAt n x ys

/-- The two splices of `reorderLayers` and of the drag-and-drop handler:
remove the element at `i` and reinsert it at `j`.  When `i` is out of range
JS would splice in `undefined`; the claims only exercise in-range indices,
modelled as the identity here. -/
def moveItem {α : Type} (ls : List α) (i j : Nat) : List α :=
  match (removeAt i ls).1 with
  | none => ls
  | some x => insertAt j x (removeAt i ls).2

/-- The renumbering map of `reorderLayers`:
`newLayers.map((l, i) => ({ ...l, order: i }))`. -/
def assignOrders : Nat → List Layer → List Layer
  | _, [] => []
  | i, l :: ls => { l with order := some (i : Int) } :: assignOrders (i + 1) ls

/-- Embedding of the store's `reorderLayers(startIndex, endIndex)`: splice
the layer from `startIndex` to `endIndex`, then renumber every layer's
`order` to its list position. -/
def reorderLayers (st : EditorState) (startIndex endIndex : Nat) : EditorState :=
  { st with layers := assignOrders 0 (moveItem st.layers startIndex endIndex),
            hasUnsavedChanges := true }

/-- Effect on a single layer of a batch of order patches with distinct
targets: the layer takes the value of the first patch aimed at its id, or
stays unchanged when none is.  This is the specification the sequential
`forEach` of `updateLayer` calls is proved to implement. -/
def applyFirstOrder (ps : List (String × Option Int)) (l : Layer) : Layer :=
  match ps.find? (fun p => p.1 == l.id) with
  | some p => { l with order := p.2 }
  | none => l

/-- One `updateLayer(id, { order: v })` call per list entry, applied in
sequence: the `items.forEach` loop of the drag-and-drop handler. -/
def foldOrderUpdates : List (String × Option Int) → List Layer → List Layer
  | [], ls => ls
  | p :: ps, ls => foldOrderUpdates ps (updateLayerOrder ls p.1 p.2)

/-- The `(item.id, items.length - 1 - i)` pairs the drag-and-drop handler
feeds to `updateLayer`, with `i` counting from the given start index. -/
def dropPairs (total : Nat) : Nat → List Layer → List (String × Option Int)
  | _, [] => []
  | i, item :: rest => (item.id, some ((total : Int) - 1 - (i : Int))) :: dropPairs total (i + 1) rest

/-- Embedding of the layer panel's `handleDrop`: no-op when the dragged row
is dropped on itself; otherwise move the dragged row within the
descending-sorted view and push `order = items.length - 1 - i` to the store
for every row `i` of the new arrangement. -/
def handleDrop (ls : List Layer) (draggedIndex targetIndex : Nat) : List Layer :=
  if draggedIndex = targetIndex then ls
  else
    let items := moveItem (sortDesc ls) draggedIndex targetIndex
    foldOrderUpdates (dropPairs items.length 0 items) ls

/-- Embedding of the layer panel's `handleMoveUp(index)`: for `index > 0`
in the descending-sorted view, swap the `order` values of the row and the
row above it via two `updateLayer` calls reading the pre-update orders.
Out-of-range rows (a JS runtime error) are modelled as the identity; the
panel only invokes the handler on rendered rows. -/
def handleMoveUp (ls : List Layer) (index : Nat) : List Layer :=
  if index = 0 then ls
  else
    match (sortDesc ls).get? index, (sortDesc ls).get? (index - 1) with
    | some cur, some prev => updateLayerOrder (updateLayerOrder ls cur.id prev.order) prev.id cur.order
    | _, _ => ls

/-- Embedding of the layer panel's `handleMoveDown(index)`: for an `index`
that is not the last row, swap the `order` values of the row and the row
below it. -/
def handleMoveDown (ls : List Layer) (index : Nat) : List Layer :=
  if index + 1 < (sortDesc ls).length then
    match (sortDesc ls).get? index, (sortDesc ls).get? (index + 1) with
    | some cur, some next => updateLayerOrder (updateLayerOrder ls cur.id next.order) next.id cur.order
    | _, _ => ls
  else ls

/-- DOM bounding rectangle as returned by `getBoundingClientRect`, already
reflecting any CSS pan translation and zoom scale. -/
structure DomRect where
  left : ℚ
  top : ℚ
  width : ℚ
  height : ℚ
deriving DecidableEq

/-- The overlay canvas as the coordinate mapper sees it: intrinsic drawing
surface size (`overlay.width`/`overlay.height`) plus its on-screen
bounding rectangle. -/
structure OverlayView where
  width : ℚ
  height : ℚ
  rect : DomRect
deriving DecidableEq

/-- Embedding of the canvas component's `getCanvasCoords`: with the overlay
mounted, scale the pointer offset from the overlay's rectangle by
intrinsic-over-displayed size; before the overlay ref exists, fall back to
undoing pan and zoom against the event target's rectangle. -/
def getCanvasCoords (overlay : Option OverlayView) (targetRect : DomRect)
    (panOffset : ℚ × ℚ) (zoom : ℚ) (clientX clientY : ℚ) : ℚ × ℚ :=
  match overlay with
  | none =>
      ((clientX - targetRect.left - panOffset.1) / zoom,
       (clientY - targetRect.top - panOffset.2) / zoom)
  | some ov =>
      let scaleX := ov.width / ov.rect.width
      let scaleY := ov.height / ov.rect.height
      ((clientX - ov.rect.left) * scaleX, (clientY - ov.rect.top) * scaleY)

/-- The four tools handled by the drawing overlay state machine. -/
def drawingTools : List String := ["brush", "eraser", "rectangle", "ellipse"]

/-- The pointer-down decision that sets the `isErasing` flag: the tool is the
eraser and the currently active layer exists and has a truthy
`image_base64` (non-null and non-empty), in which case that raster is
pre-loaded onto the overlay. -/
def isErasingAtPointerDown (activeTool : String) (layers : List Layer)
    (activeLayerId : Option String) : Bool :=
  if activeTool = "eraser" then
    match activeLayerId with
    | none => false
    | some lid =>
      match layers.find? (fun l => l.id == lid) with
      | some l => (l.image_base64.getD "") != ""
      | none => false
  else false

/-- The commit guard's pixel test `data.some(v => v !== 0)` over the
overlay's flat RGBA byte array. -/
def hasPixels (data : List Nat) : Bool := data.any (fun v => v ≠ 0)

/-- Snapshot of the component state `commitDrawing` closes over at
pointer-up: the overlay's byte data and its PNG encoding, the `isErasing`
flag recorded at pointer-down, the active layer id, the active tool, and
the `Date.now()` stamp used for a fresh layer id. -/
structure CommitInput where
  overlayData : List Nat
  overlayBase64 : String
  isErasing : Bool
  activeLayerId : Option String
  activeTool : String
  timestamp : Nat
deriving DecidableEq

/-- The layer object a non-eraser commit appends:
`Sketch (tool)` named, holding the overlay's encoding, fully opaque,
normal blend, `order: layers.length`. -/
def sketchLayer (tool : String) (overlayBase64 : String) (count : Nat) (timestamp : Nat) : Layer :=
  { id := "layer-" ++ toString timestamp,
    name := "Sketch (" ++ tool ++ ")",
    type := "image",
    image_base64 := some overlayBase64,
    visible := true,
    opacity := 1,
    blend_mode := "normal",
    order := some (count : Int) }

/-- Embedding of the canvas component's `commitDrawing`: return the new
store state and the overlay byte buffer afterwards.  If the overlay has no
nonzero byte and the `isErasing` flag is unset, it is an early return (no
store change, overlay kept).  Otherwise, when erasing with an active layer
id the active layer's raster is overwritten in place; in every other case a
new `Sketch (tool)` layer is appended; finally `clearRect` zeroes the
overlay. -/
def commitDrawing (inp : CommitInput) (st : EditorState) : EditorState × List Nat :=
  if !hasPixels inp.overlayData && !inp.isErasing then (st, inp.overlayData)
  else
    let cleared := List.replicate inp.overlayData.length 0
    if inp.isErasing && inp.activeLayerId.isSome then
      ({ st with layers := updateLayerImage st.layers (inp.activeLayerId.getD "")
                              (some inp.overlayBase64),
                 hasUnsavedChanges := true }, cleared)
    else
      (addLayer st (sketchLayer inp.activeTool inp.overlayBase64 st.layers.length inp.timestamp),
       cleared)

/-- Embedding of the canvas component's `handleMouseUp`, which is also the
`onMouseLeave` handler: commit when a drawing session with one of the four
drawing tools is in progress, otherwise leave store and overlay alone. -/
def handleMouseUp (isDrawing : Bool) (inp : CommitInput) (st : EditorState) :
    EditorState × List Nat :=
  if isDrawing && drawingTools.contains inp.activeTool then commitDrawing inp st
  else (st, inp.overlayData)

/-- Round a rational to the nearest integer (half away from zero upward),
the rounding applied when canvas float math lands back in a byte. -/
def qRound (x : ℚ) : Int := Int.floor (x + 1 / 2)

/-- Clamp an integer into the byte range. -/
def clampByte (i : Int) : Nat := (max 0 (min 255 i)).toNat

/-- Hard-light blend in the byte domain: multiply for source below one
half, screen of the doubled remainder above. -/
def hardLightChannel (cb cs : Nat) : Nat :=
  if cs ≤ 127 then div255r (cb * (2 * cs))
  else cb + (2 * cs - 255) - div255r (cb * (2 * cs - 255))

/-- Polynomial branch of the soft-light helper `D`, scaled to bytes:
`255 * ((16c - 12) c + 4) c` at `c = cb / 255`, rounded. -/
def softDPoly (cb : Nat) : Nat :=
  let c : ℚ := (cb : ℚ) / 255
  clampByte (qRound (255 * (((16 * c - 12) * c + 4) * c)))

/-- Soft-light blend in the byte domain, following the W3C piecewise
formula; the square-root branch of `D` is `sqrt(c)` scaled to bytes,
`Nat.sqrt (255 * cb)`. -/
def softLightChannel (cb cs : Nat) : Nat :=
  if cs ≤ 127 then
    cb - ((255 - 2 * cs) * cb * (255 - cb) + 32512) / 65025
  else
    let d := if 4 * cb ≤ 255 then softDPoly cb else Nat.sqrt (255 * cb)
    cb + ((2 * cs - 255) * (d - cb) + 127) / 255

/-- The per-channel blend formula selected by the canvas
`globalCompositeOperation` keyword during export.  `normal` is mapped to
`source-over` by the export code, i.e. the source channel unchanged; the
other eleven keywords are the W3C separable blend functions in the byte
domain with round-to-nearest divisions. -/
def blendChannel (mode : String) (cb cs : Nat) : Nat :=
  match mode with
  | "multiply" => div255r (cb * cs)
  | "screen" => cb + cs - div255r (cb * cs)
  | "overlay" => hardLightChannel cs cb
  | "darken" => min cb cs
  | "lighten" => max cb cs
  | "color-dodge" =>
      if cb = 0 then 0
      else if cs = 255 then 255
      else min 255 ((255 * cb + (255 - cs) / 2) / (255 - cs))
  | "color-burn" =>
      if cb = 255 then 255
      else if cs = 0 then 0
      else 255 - min 255 ((255 * (255 - cb) + cs / 2) / cs)
  | "hard-light" => hardLightChannel cb cs
  | "soft-light" => softLightChannel cb cs
  | "difference" => max cb cs - min cb cs
  | "exclusion" => cb + cs - 2 * div255r (cb * cs)
  | _ => cs

/-- One canvas `drawImage` pixel under `globalAlpha = opacity` and the given
composite keyword: blend the source channel against the backdrop, then
source-over composite with the opacity-scaled source alpha. -/
def compositePixel (mode : String) (opacity : ℚ) (d s : Pixel) : Pixel :=
  let alphaS : ℚ := opacity * (s.a : ℚ) / 255
  let alphaB : ℚ := (d.a : ℚ) / 255
  let alphaO : ℚ := alphaS + alphaB * (1 - alphaS)
  let chan : Nat → Nat → Nat := fun cb cs =>
    let mixed : ℚ := (1 - alphaB) * (cs : ℚ) + alphaB * (blendChannel mode cb cs : ℚ)
    let premult : ℚ := alphaS * mixed + (1 - alphaS) * alphaB * (cb : ℚ)
    if alphaO = 0 then 0 else clampByte (qRound (premult / alphaO))
  { r := chan d.r s.r, g := chan d.g s.g, b := chan d.b s.b,
    a := clampByte (qRound (alphaO * 255)) }

/-- Canvas `drawImage(img, 0, 0)` with the current alpha and composite mode:
pixels covered by the source are composited, the rest of the destination is
untouched. -/
def compositeImageOnto (dst src : Raster) (opacity : ℚ) (mode : String) : Raster :=
  { width := dst.width, height := dst.height,
    pix := fun x y =>
      if x < src.width ∧ y < src.height then compositePixel mode opacity (dst.pix x y) (src.pix x y)
      else dst.pix x y }

/-- Fresh canvas: transparent black at the given size. -/
def blankRaster (w h : Nat) : Raster :=
  { width := w, height := h, pix := fun _ _ => { r := 0, g := 0, b := 0, a := 0 } }

/-- The export filter `l.visible && l.image_base64` with JS truthiness of
the base64 string (null and the empty string are falsy). -/
def exportVisible (l : Layer) : Bool := l.visible && ((l.image_base64.getD "") != "")

/-- Embedding of the header's `handleExport`: filter to visible layers with
a raster, sort ascending by `order`, and if none remain return early with
no raster at all; otherwise size a fresh canvas to the first layer's image
and draw every visible layer bottom to top with its opacity and blend mode.
Decoding base64 into a raster is the explicit `decode` parameter. -/
def handleExport (decode : String → Raster) (layers : List Layer) : Option Raster :=
  let visibleLayers := sortAsc (layers.filter exportVisible)
  match visibleLayers with
  | [] => none
  | first :: _ =>
    let firstImg := decode (first.image_base64.getD "")
    some (visibleLayers.foldl
      (fun acc l => compositeImageOnto acc (decode (l.image_base64.getD "")) l.opacity l.blend_mode)
      (blankRaster firstImg.width firstImg.height))

/-! Concrete sample data used by the witness theorems. -/

/-- Constant grey 2×2 single-channel mask. -/
def sampleMaskA : Raster := { width := 2, height := 2, pix := fun _ _ => ⟨200, 200, 200, 255⟩ }

/-- Darker constant 2×2 single-channel mask. -/
def sampleMaskB : Raster := { width := 2, height := 2, pix := fun _ _ => ⟨90, 90, 90, 255⟩ }

/-- Raster agreeing with `sampleMaskA` on red only; green, blue and alpha
are junk. -/
def sampleMaskC : Raster := { width := 2, height := 2, pix := fun _ _ => ⟨200, 0, 17, 3⟩ }

/-- Raster agreeing with `sampleMaskB` on red only; green, blue and alpha
are junk. -/
def sampleMaskD : Raster := { width := 2, height := 2, pix := fun _ _ => ⟨90, 5, 6, 7⟩ }

/-- Fully opaque constant 2×2 image. -/
def sampleImage : Raster := { width := 2, height := 2, pix := fun _ _ => ⟨10, 20, 30, 255⟩ }

/-- Concrete background layer at order 0. -/
def layerBg : Layer :=
  { id := "layer-background", name := "Background", type := "image",
    image_base64 := some "QUJD", visible := true, opacity := 1,
    blend_mode := "normal", order := some 0 }

/-- Concrete second layer at order 1. -/
def layerOne : Layer :=
  { id := "layer-1", name := "Layer 1", type := "image",
    image_base64 := some "REVG", visible := true, opacity := 1,
    blend_mode := "normal", order := some 1 }

/-- Concrete third layer at order 2. -/
def layerTwo : Layer :=
  { id := "layer-2", name := "Layer 2", type := "image",
    image_base64 := some "R0hJ", visible := true, opacity := 1,
    blend_mode := "normal", order := some 2 }

/-- Layer passed to the store without any `order` field. -/
def layerNoOrder : Layer :=
  { id := "layer-3", name := "Sketch (brush)", type := "image",
    image_base64 := some "SktM", visible := true, opacity := 1,
    blend_mode := "normal", order := none }

/-- Hidden layer: visible is false, so the export filter drops it. -/
def layerHidden : Layer :=
  { id := "layer-4", name := "Hidden", type := "image",
    image_base64 := some "TU5P", visible := false, opacity := 1,
    blend_mode := "normal", order := some 0 }

/-- Concrete two-layer store state. -/
def sampleState : EditorState :=
  { layers := [layerBg, layerOne], activeLayerId := some "layer-background",
    hasUnsavedChanges := false }

/-- Layer whose `image_base64` is the empty string — truthy-wise blank, as
the panel's add-layer button creates it. -/
def eraserLayer : Layer :=
  { id := "layer-e", name := "Layer 1", type := "image",
    image_base64 := some "", visible := true, opacity := 1,
    blend_mode := "normal", order := some 0 }

/-- Store state whose active layer is the blank `eraserLayer`. -/
def eraserState : EditorState :=
  { layers := [eraserLayer], activeLayerId := some "layer-e",
    hasUnsavedChanges := false }

/-- Pointer-up snapshot of an eraser session over `eraserState`: the overlay
stayed fully transparent (erasing on a blank overlay clears nothing) and
the `isErasing` flag is whatever pointer-down computed for that state. -/
def eraserInput : CommitInput :=
  { overlayData := [0, 0, 0, 0], overlayBase64 := "QkxBTks=",
    isErasing := isErasingAtPointerDown "eraser" [eraserLayer] (some "layer-e"),
    activeLayerId := some "layer-e", activeTool := "eraser", timestamp := 7 }

/-- Pointer-up snapshot of a brush stroke that left one non-transparent
pixel on the overlay. -/
def brushInput : CommitInput :=
  { overlayData := [0, 0, 0, 9], overlayBase64 := "Uk5E",
    isErasing := false, activeLayerId := some "layer-background",
    activeTool := "brush", timestamp := 42 }

/-- Decode stub for export witnesses: every string decodes to a 1×1 blank
raster. -/
def decodeStub : String → Raster := fun _ => blankRaster 1 1

/-! Theorems. -/

/-- C1 counterexample: called on an empty mask list, `combineMasks`
succeeds and hands back `null` (`Except.ok none`) — a silent pass-through
returning a null result, not an `EmptyMaskSet` (or any other) error. -/
theorem C1_empty_combine_returns_null :
    combineMasks ([] : List Raster) "union" = Except.ok none ∧
    (combineMasks ([] : List Raster) "union").isOk = true :=
  ⟨rfl, rfl⟩

/-- C1 (amended): for every operation name, `combineMasks` on an empty mask
list returns success with a null result; no error of any kind is raised. -/
theorem C1_combineMasks_empty_silent (op : String) :
    combineMasks ([] : List Raster) op = Except.ok none := rfl

/-- C2: for equal-dimension single-channel masks, the pairwise operations
compute per pixel exactly max for union, min for intersection,
`max(0, a - b)` (truncated subtraction) for subtract and `|a - b|` for xor
on the mask values (red channels), and each result carries the first
operand's dimensions.  The embedded operations are pure functions, so the
inputs are untouched by construction. -/
theorem C2_pairwise_mask_formulas (a b : Raster) (x y : Nat)
    (hw : a.width = b.width) (hh : a.height = b.height)
    (hsa : singleChannel a) (hsb : singleChannel b) :
    ((maskUnion a b).pix x y).r = max (a.pix x y).r (b.pix x y).r ∧
    (maskUnion a b).width = a.width ∧ (maskUnion a b).height = a.height ∧
    ((maskIntersection a b).pix x y).r = min (a.pix x y).r (b.pix x y).r ∧
    (maskIntersection a b).width = a.width ∧ (maskIntersection a b).height = a.height ∧
    ((maskSubtract a b).pix x y).r = (a.pix x y).r - (b.pix x y).r ∧
    (maskSubtract a b).width = a.width ∧ (maskSubtract a b).height = a.height ∧
    ((maskXor a b).pix x y).r
      = max ((a.pix x y).r - (b.pix x y).r) ((b.pix x y).r - (a.pix x y).r) ∧
    (maskXor a b).width = a.width ∧ (maskXor a b).height = a.height := by
  refine ⟨rfl, rfl, rfl, rfl, rfl, rfl, ?_, rfl, rfl, ?_, rfl, rfl⟩
  · simp only [maskSubtract]
    omega
  · simp only [maskXor]
    omega

/-- C2 witness: the union formula instantiated at two concrete 2×2 masks,
every hypothesis discharged there. -/
theorem C2_pairwise_mask_formulas_witness :
    ((maskUnion sampleMaskA sampleMaskB).pix 0 0).r
      = max ((sampleMaskA.pix 0 0).r) ((sampleMaskB.pix 0 0).r) :=
  (C2_pairwise_mask_formulas sampleMaskA sampleMaskB 0 0 rfl rfl
    (fun _ _ => ⟨rfl, rfl, rfl⟩) (fun _ _ => ⟨rfl, rfl, rfl⟩)).1

/-- C3: on a fully opaque image and a mask of the same dimensions with byte
alpha values, masked extraction (`destination-in`) and masked removal
(`destination-out`) have complementary alpha at every pixel: their alphas
sum to the original image alpha. -/
theorem C3_extract_remove_alpha_complementary (image mask : Raster) (x y : Nat)
    (hfullalpha : ∀ u v, (image.pix u v).a = 255)
    (hbyte : (mask.pix x y).a ≤ 255)
    (hw : image.width = mask.width) (hh : image.height = mask.height) :
    ((applyMaskToImage image mask false).pix x y).a
      + ((removeMaskFromImage image mask).pix x y).a = (image.pix x y).a := by
  simp only [applyMaskToImage, removeMaskFromImage, destinationIn, destinationOut,
    mulDiv255, div255r, Bool.false_eq_true, if_false, hfullalpha]
  omega

/-- C3 witness: the complementarity instantiated on a concrete opaque 2×2
image and a concrete 2×2 mask. -/
theorem C3_extract_remove_alpha_complementary_witness :
    ((applyMaskToImage sampleImage sampleMaskA false).pix 0 0).a
      + ((removeMaskFromImage sampleImage sampleMaskA).pix 0 0).a
      = (sampleImage.pix 0 0).a :=
  C3_extract_remove_alpha_complementary sampleImage sampleMaskA 0 0
    (fun _ _ => rfl) (by decide) rfl rfl

/-- C9: every pixel any pairwise mask operation produces has R = G = B and
A = 255, and the produced pixel depends only on the inputs' red channels:
replacing the inputs by rasters with the same red values (arbitrary green,
blue and alpha) gives the identical output pixel. -/
theorem C9_mask_ops_renormalize (a b c d : Raster) (x y : Nat)
    (hra : (a.pix x y).r = (c.pix x y).r) (hrb : (b.pix x y).r = (d.pix x y).r) :
    (((maskUnion a b).pix x y).r = ((maskUnion a b).pix x y).g ∧
     ((maskUnion a b).pix x y).r = ((maskUnion a b).pix x y).b ∧
     ((maskUnion a b).pix x y).a = 255 ∧
     (maskUnion a b).pix x y = (maskUnion c d).pix x y) ∧
    (((maskIntersection a b).pix x y).r = ((maskIntersection a b).pix x y).g ∧
     ((maskIntersection a b).pix x y).r = ((maskIntersection a b).pix x y).b ∧
     ((maskIntersection a b).pix x y).a = 255 ∧
     (maskIntersection a b).pix x y = (maskIntersection c d).pix x y) ∧
    (((maskSubtract a b).pix x y).r = ((maskSubtract a b).pix x y).g ∧
     ((maskSubtract a b).pix x y).r = ((maskSubtract a b).pix x y).b ∧
     ((maskSubtract a b).pix x y).a = 255 ∧
     (maskSubtract a b).pix x y = (maskSubtract c d).pix x y) ∧
    (((maskXor a b).pix x y).r = ((maskXor a b).pix x y).g ∧
     ((maskXor a b).pix x y).r = ((maskXor a b).pix x y).b ∧
     ((maskXor a b).pix x y).a = 255 ∧
     (maskXor a b).pix x y = (maskXor c d).pix x y) := by
  refine ⟨⟨rfl, rfl, rfl, ?_⟩, ⟨rfl, rfl, rfl, ?_⟩, ⟨rfl, rfl, rfl, ?_⟩, ⟨rfl, rfl, rfl, ?_⟩⟩
  · simp [maskUnion, hra, hrb]
  · simp [maskIntersection, hra, hrb]
  · simp [maskSubtract, hra, hrb]
  · simp [maskXor, hra, hrb]

/-- C9 witness: the xor re-normalization instantiated at concrete masks,
with the red-agreeing inputs carrying junk green, blue and alpha. -/
theorem C9_mask_ops_renormalize_witness :
    (maskXor sampleMaskA sampleMaskB).pix 0 0 = (maskXor sampleMaskC sampleMaskD).pix 0 0 :=
  (C9_mask_ops_renormalize sampleMaskA sampleMaskB sampleMaskC sampleMaskD 0 0
    rfl rfl).2.2.2.2.2.2

/-- C4 counterexample: adding a layer whose `order` is unspecified to a
two-layer store stores it with `order` still unset — the store does not
assign `order = count` (which would be 2 here). -/
theorem C4_no_order_assigned_counterexample :
    (addLayer sampleState layerNoOrder).layers.getLast? = some layerNoOrder ∧
    sampleState.layers.length = 2 ∧
    layerNoOrder.order = none ∧
    layerNoOrder.order ≠ some ((2 : Nat) : Int) := by
  refine ⟨rfl, rfl, rfl, by decide⟩

/-- C4 (amended): `addLayer` appends the layer object exactly as given —
no field, in particular not `order`, is altered even when unspecified —
sets the new layer as active, and always succeeds (it is total); callers,
not the store, are the ones assigning `order = count`. -/
theorem C4_addLayer_appends_verbatim (st : EditorState) (layer : Layer) :
    (addLayer st layer).layers = st.layers ++ [layer] ∧
    (addLayer st layer).activeLayerId = some layer.id ∧
    (addLayer st layer).layers.length = st.layers.length + 1 := by
  refine ⟨rfl, rfl, by simp [addLayer]⟩

/-- C7: on a stack A(order 0), B(order 1), C(order 2) with distinct ids,
the move-up on B (and equally the move-down on C) swaps exactly the order
values of B and C: the result keeps A identical and changes nothing of B
and C but their `order` fields. -/
theorem C7_move_swaps_exactly_two_orders (a b c : Layer)
    (ha : a.order = some 0) (hb : b.order = some 1) (hc : c.order = some 2)
    (hab : a.id ≠ b.id) (hac : a.id ≠ c.id) (hbc : b.id ≠ c.id) :
    handleMoveUp [a, b, c] 1 = [a, { b with order := some 2 }, { c with order := some 1 }] ∧
    handleMoveDown [a, b, c] 0 = [a, { b with order := some 2 }, { c with order := some 1 }] := by
  have hsort : sortDesc [a, b, c] = [c, b, a] := by
    simp [sortDesc, insertDesc, layerOrderVal, ha, hb, hc]
  constructor
  · simp [handleMoveUp, hsort, updateLayerOrder, hb, hc,
      hab, hac, hbc, Ne.symm hab, Ne.symm hac, Ne.symm hbc]
  · simp [handleMoveDown, hsort, updateLayerOrder, hb, hc,
      hab, hac, hbc, Ne.symm hab, Ne.symm hac, Ne.symm hbc]

/-- C7 witness: the swap carried out on three concrete layers. -/
theorem C7_move_swaps_exactly_two_orders_witness :
    handleMoveUp [layerBg, layerOne, layerTwo] 1
      = [layerBg, { layerOne with order := some 2 }, { layerTwo with order := some 1 }] ∧
    handleMoveDown [layerBg, layerOne, layerTwo] 0
      = [layerBg, { layerOne with order := some 2 }, { layerTwo with order := some 1 }] :=
  C7_move_swaps_exactly_two_orders layerBg layerOne layerTwo rfl rfl rfl
    (by decide) (by decide) (by decide)

/-- C8: with the overlay mounted, `getCanvasCoords` maps a pointer position
to `(clientX - rect.left) * (intrinsicWidth / displayedWidth)` and likewise
for y; when zoom is 1, pan is (0,0) and the displayed rectangle equals the
intrinsic size, the result is exactly the raw offset from the surface's
top-left corner. -/
theorem C8_coordinate_mapping (ov : OverlayView) (targetRect : DomRect)
    (pan : ℚ × ℚ) (zoom : ℚ) (cx cy : ℚ)
    (hwidth : ov.rect.width ≠ 0) (hheight : ov.rect.height ≠ 0) :
    getCanvasCoords (some ov) targetRect pan zoom cx cy
      = ((cx - ov.rect.left) * (ov.width / ov.rect.width),
         (cy - ov.rect.top) * (ov.height / ov.rect.height)) ∧
    (zoom = 1 → pan = (0, 0) → ov.width = ov.rect.width → ov.height = ov.rect.height →
      getCanvasCoords (some ov) targetRect pan zoom cx cy
        = (cx - ov.rect.left, cy - ov.rect.top)) := by
  constructor
  · rfl
  · intro _ _ hw hh
    simp [getCanvasCoords, hw, hh, div_self hwidth, div_self hheight]

/-- C8 witness: a concrete pointer event at (14, 23) over a 4×4 surface
displayed at its intrinsic size with top-left corner (10, 20) maps to the
raw offset (4, 3). -/
theorem C8_coordinate_mapping_witness :
    getCanvasCoords (some { width := 4, height := 4, rect := ⟨10, 20, 4, 4⟩ })
      ⟨0, 0, 1, 1⟩ (0, 0) 1 14 23 = (4, 3) := by
  have h := (C8_coordinate_mapping { width := 4, height := 4, rect := ⟨10, 20, 4, 4⟩ }
    ⟨0, 0, 1, 1⟩ (0, 0) 1 14 23 (by norm_num) (by norm_num)).2 rfl rfl rfl rfl
  exact h.trans (by norm_num)

/-- C5 counterexample: the active tool is the eraser, yet pointer-up
performs no commit at all.  The active layer's raster is blank-falsy
(`""`), so pointer-down left `isErasing` false; the overlay has no nonzero
byte; `handleMouseUp` then returns the store and overlay untouched — the
active layer's raster is not overwritten with the overlay's content and
the overlay is not cleared, contradicting "committed if and only if the
tool is eraser or the overlay has a non-transparent pixel". -/
theorem C5_eraser_pointer_up_without_commit :
    isErasingAtPointerDown "eraser" [eraserLayer] (some "layer-e") = false ∧
    handleMouseUp true eraserInput eraserState = (eraserState, eraserInput.overlayData) ∧
    (handleMouseUp true eraserInput eraserState).1.layers.map (fun l => l.image_base64)
      = [some ""] :=
  ⟨rfl, rfl, rfl⟩

/-- C5 (amended): when a drawing session with one of the four drawing tools
ends, the overlay is committed if and only if the overlay buffer holds a
nonzero byte or the `isErasing` flag was set at pointer-down (eraser tool
with an active layer that had a truthy raster).  An erasing commit with an
active layer id overwrites exactly that layer's raster with the overlay's
content; every other commit appends a new `Sketch (tool)` layer at order
`count` and makes it active; after either commit the overlay is cleared;
with no commit, store and overlay are unchanged. -/
theorem C5_commit_behavior (inp : CommitInput) (st : EditorState)
    (htool : drawingTools.contains inp.activeTool = true) :
    (hasPixels inp.overlayData = false → inp.isErasing = false →
       handleMouseUp true inp st = (st, inp.overlayData)) ∧
    (∀ lid, inp.isErasing = true → inp.activeLayerId = some lid →
       handleMouseUp true inp st
         = ({ st with layers := updateLayerImage st.layers lid (some inp.overlayBase64),
                      hasUnsavedChanges := true },
            List.replicate inp.overlayData.length 0)) ∧
    ((hasPixels inp.overlayData = true ∨ inp.isErasing = true) →
     (inp.isErasing = false ∨ inp.activeLayerId = none) →
       handleMouseUp true inp st
         = (addLayer st
              (sketchLayer inp.activeTool inp.overlayBase64 st.layers.length inp.timestamp),
            List.replicate inp.overlayData.length 0)) := by
  have hmem : inp.activeTool ∈ drawingTools := by simpa using htool
  refine ⟨?_, ?_, ?_⟩
  · intro h1 h2
    simp [handleMouseUp, hmem, commitDrawing, h1, h2]
  · intro lid h1 h2
    simp [handleMouseUp, hmem, commitDrawing, h1, h2]
  · intro h1 h2
    rcases h1 with h1 | h1 <;> rcases h2 with h2 | h2 <;>
      simp_all [handleMouseUp, commitDrawing]

/-- C5 witness: a brush stroke with a nonzero overlay byte over the
two-layer store commits by appending the `Sketch (brush)` layer and
clearing the overlay. -/
theorem C5_commit_behavior_witness :
    handleMouseUp true brushInput sampleState
      = (addLayer sampleState
           (sketchLayer brushInput.activeTool brushInput.overlayBase64
             sampleState.layers.length brushInput.timestamp),
         List.replicate brushInput.overlayData.length 0) :=
  (C5_commit_behavior brushInput sampleState rfl).2.2 (Or.inl rfl) (Or.inl rfl)

/-- C6 counterexample: exporting a stack whose only layer is invisible
returns early with no raster at all (`none`) — no empty or blank raster is
produced, contradicting "returns an empty/blank raster". -/
theorem C6_export_zero_visible_returns_nothing :
    handleExport decodeStub [layerHidden] = none ∧
    (handleExport decodeStub [layerHidden]).isSome = false :=
  ⟨rfl, rfl⟩

/-- C6 (amended): flatten/export with zero visible raster-bearing layers is
a silent no-op: it returns early producing no raster (rather than a blank
one), and raises no error — the absence of an error channel in the result
type reflects the code, which only ever returns. -/
theorem C6_export_no_visible_is_noop (decode : String → Raster) (layers : List Layer)
    (h : layers.filter exportVisible = []) :
    handleExport decode layers = none := by
  simp [handleExport, h, sortAsc]

/-- C6 witness: the no-op export instantiated on a concrete stack of two
hidden layers. -/
theorem C6_export_no_visible_is_noop_witness :
    handleExport decodeStub [layerHidden, layerHidden] = none :=
  C6_export_no_visible_is_noop decodeStub [layerHidden, layerHidden] rfl

/-! Helper lemmas about the splice, sort and order-update machinery, used
by the reorder claims. -/

/-- Splicing an element in yields a permutation of consing it on. -/
theorem insertAt_perm {α : Type} : ∀ (j : Nat) (x : α) (ls : List α),
    (insertAt j x ls).Perm (x :: ls)
  | 0, _, _ => List.Perm.refl _
  | _ + 1, x, [] => List.Perm.refl _
  | j + 1, x, y :: ys => by
      simp only [insertAt]
      exact ((insertAt_perm j x ys).cons y).trans (List.Perm.swap x y ys)

/-- A successful removal splits the list into the removed element and a
one-shorter remainder, up to permutation. -/
theorem removeAt_spec {α : Type} : ∀ (i : Nat) (ls : List α), i < ls.length →
    ∃ x, (removeAt i ls).1 = some x ∧ (removeAt i ls).2.length + 1 = ls.length ∧
      (x :: (removeAt i ls).2).Perm ls
  | _, [], h => absurd h (by simp)
  | 0, x :: xs, _ => ⟨x, rfl, rfl, List.Perm.refl _⟩
  | i + 1, x :: xs, h => by
      obtain ⟨y, h1, h2, h3⟩ := removeAt_spec i xs (Nat.lt_of_succ_lt_succ h)
      refine ⟨y, ?_, ?_, ?_⟩
      · simpa [removeAt] using h1
      · simp only [removeAt, List.length_cons]
        omega
      · simp only [removeAt]
        exact (List.Perm.swap x y _).trans (h3.cons x)

/-- Moving an element from a valid index permutes the list. -/
theorem moveItem_perm {α : Type} (ls : List α) (i j : Nat) (h : i < ls.length) :
    (moveItem ls i j).Perm ls := by
  obtain ⟨x, h1, _, h3⟩ := removeAt_spec i ls h
  simp only [moveItem, h1]
  exact (insertAt_perm j x _).trans h3

/-- Moving an element from a valid index preserves the length. -/
theorem moveItem_length {α : Type} (ls : List α) (i j : Nat) (h : i < ls.length) :
    (moveItem ls i j).length = ls.length :=
  (moveItem_perm ls i j h).length_eq

/-- Stable descending insertion permutes consing. -/
theorem insertDesc_perm (x : Layer) : ∀ ls : List Layer, (insertDesc x ls).Perm (x :: ls)
  | [] => List.Perm.refl _
  | y :: ys => by
      by_cases h : layerOrderVal y ≤ layerOrderVal x
      · simp only [insertDesc, if_pos h]
        exact List.Perm.refl _
      · simp only [insertDesc, if_neg h]
        exact ((insertDesc_perm x ys).cons y).trans (List.Perm.swap x y ys)

/-- The layer panel's descending sort is a permutation of the store list. -/
theorem sortDesc_perm : ∀ ls : List Layer, (sortDesc ls).Perm ls
  | [] => List.Perm.refl _
  | x :: xs => by
      simp only [sortDesc]
      exact (insertDesc_perm x (sortDesc xs)).trans ((sortDesc_perm xs).cons x)

/-- The descending sort preserves length. -/
theorem sortDesc_length (ls : List Layer) : (sortDesc ls).length = ls.length :=
  (sortDesc_perm ls).length_eq

/-- On the empty update list, `applyFirstOrder` is the identity. -/
theorem applyFirstOrder_nil (l : Layer) : applyFirstOrder [] l = l := rfl

/-- A sequence of `updateLayer` order patches with pairwise distinct target
ids acts as one simultaneous map: each layer receives the order of the
first (unique) patch aimed at its id, layers without a patch are kept. -/
theorem foldOrderUpdates_eq_map : ∀ (ps : List (String × Option Int)) (ls : List Layer),
    (ps.map Prod.fst).Nodup → foldOrderUpdates ps ls = ls.map (applyFirstOrder ps)
  | [], ls, _ => by
      simp only [foldOrderUpdates]
      exact ((List.map_congr_left fun a _ => applyFirstOrder_nil a).trans (List.map_id ls)).symm
  | (k, v) :: ps, ls, hnd => by
      rw [List.map_cons] at hnd
      obtain ⟨hk, hnd2⟩ := List.nodup_cons.mp hnd
      simp only [foldOrderUpdates]
      rw [foldOrderUpdates_eq_map ps _ hnd2, updateLayerOrder, List.map_map]
      apply List.map_congr_left
      intro l _
      by_cases h : l.id = k
      · have hnone : ps.find? (fun p => p.1 == k) = none := by
          refine List.find?_eq_none.mpr ?_
          intro p hp hbeq
          have hpk : p.1 = k := by simpa using hbeq
          exact hk (by simpa [hpk] using List.mem_map_of_mem Prod.fst hp)
        simp [Function.comp, applyFirstOrder, h, hnone]
      · simp [Function.comp, applyFirstOrder, if_neg h, Ne.symm h]

/-- Applying the drag-and-drop patch list to the dragged arrangement itself
reads back exactly the patch values, position by position. -/
theorem map_applyFirstOrder_dropPairs : ∀ (items : List Layer) (n i : Nat),
    (items.map (fun l => l.id)).Nodup →
    (items.map (applyFirstOrder (dropPairs n i items))).map (fun l => l.order)
      = (dropPairs n i items).map Prod.snd
  | [], _, _, _ => rfl
  | item :: rest, n, i, hnd => by
      rw [List.map_cons] at hnd
      obtain ⟨h1, h2⟩ := List.nodup_cons.mp hnd
      simp only [dropPairs, List.map_cons]
      congr 1
      · simp [applyFirstOrder]
      · have hskip : ∀ l ∈ rest,
            applyFirstOrder ((item.id, some ((n : Int) - 1 - (i : Int))) :: dropPairs n (i + 1) rest) l
              = applyFirstOrder (dropPairs n (i + 1) rest) l := by
          intro l hl
          have hne : item.id ≠ l.id := fun he => h1 (he ▸ List.mem_map_of_mem _ hl)
          simp only [applyFirstOrder]
          rw [List.find?_cons_of_neg _ (by simpa using hne)]
        rw [List.map_congr_left hskip]
        exact map_applyFirstOrder_dropPairs rest n (i + 1) h2

/-- The patch values of the drag-and-drop update list, as a function of the
position. -/
theorem dropPairs_map_snd : ∀ (items : List Layer) (n i : Nat),
    (dropPairs n i items).map Prod.snd
      = (List.range items.length).map (fun (k : Nat) => some ((n : Int) - 1 - (i : Int) - (k : Int)))
  | [], _, _ => rfl
  | item :: rest, n, i => by
      simp only [dropPairs, List.map_cons, List.length_cons, List.range_succ_eq_map,
        List.map_map]
      congr 1
      · simp
      · rw [dropPairs_map_snd rest n (i + 1)]
        apply List.map_congr_left
        intro k _
        simp only [Function.comp, Option.some_inj, Nat.succ_eq_add_one]
        push_cast
        ring

/-- The patch targets of the drag-and-drop update list are the item ids. -/
theorem dropPairs_map_fst : ∀ (items : List Layer) (n i : Nat),
    (dropPairs n i items).map Prod.fst = items.map (fun l => l.id)
  | [], _, _ => rfl
  | item :: rest, n, i => by
      simp only [dropPairs, List.map_cons]
      rw [dropPairs_map_fst rest n (i + 1)]

/-- Renumbering assigns consecutive orders starting at the given index. -/
theorem assignOrders_map_order : ∀ (ls : List Layer) (i : Nat),
    (assignOrders i ls).map (fun l => l.order)
      = (List.range ls.length).map (fun (k : Nat) => some (((i + k : Nat) : Int)))
  | [], _ => rfl
  | l :: ls, i => by
      simp only [assignOrders, List.map_cons, List.length_cons, List.range_succ_eq_map,
        List.map_map]
      congr 1
      · rw [assignOrders_map_order ls (i + 1)]
        apply List.map_congr_left
        intro k _
        simp only [Function.comp, Option.some_inj, Nat.succ_eq_add_one]
        congr 1
        omega

/-- Counting down from `m - 1` enumerates the same values as counting up. -/
theorem range_desc_perm (m : Nat) :
    ((List.range m).map (fun (k : Nat) => some ((m : Int) - 1 - (k : Int)))).Perm
      ((List.range m).map (fun (k : Nat) => some ((k : Int)))) := by
  have h1 : (List.range m).map (fun (k : Nat) => some ((m : Int) - 1 - (k : Int)))
      = ((List.range m).map (fun k => m - 1 - k)).map (fun (j : Nat) => some ((j : Int))) := by
    rw [List.map_map]
    apply List.map_congr_left
    intro k hk
    have hk2 : k < m := List.mem_range.mp hk
    simp only [Function.comp, Option.some_inj]
    omega
  have h2 : (List.range m).map (fun k => m - 1 - k) = (List.range m).reverse := by
    rw [show (List.range m).reverse = (List.range' 0 m).reverse from by
      rw [List.range_eq_range'], List.reverse_range']
    apply List.map_congr_left
    intro k _
    omega
  rw [h1, h2, List.map_reverse]
  exact List.reverse_perm _

/-- C10: after `reorderLayers(startIndex, endIndex)` on a valid start index
the order fields read off in store sequence are exactly 0, 1, …, n-1; and
after a drag-and-drop reorder on a stack with distinct ids the multiset of
order fields equals {0, 1, …, n-1} — the whole stack is renumbered by
position, pairwise distinct and contiguous, regardless of the previous
order values. -/
theorem C10_reorders_renumber_contiguously :
    (∀ (st : EditorState) (i j : Nat), i < st.layers.length →
       (reorderLayers st i j).layers.map (fun l => l.order)
         = (List.range st.layers.length).map (fun (k : Nat) => some ((k : Int)))) ∧
    (∀ (ls : List Layer) (di ti : Nat),
       (ls.map (fun l => l.id)).Nodup → di ≠ ti → di < ls.length →
       ((handleDrop ls di ti).map (fun l => l.order)).Perm
         ((List.range ls.length).map (fun (k : Nat) => some ((k : Int))))) := by
  constructor
  · intro st i j h
    simp only [reorderLayers]
    rw [assignOrders_map_order, moveItem_length st.layers i j h]
    apply List.map_congr_left
    intro k _
    simp
  · intro ls di ti hnd hne hdi
    have hdi2 : di < (sortDesc ls).length := by rw [sortDesc_length]; exact hdi
    have hperm : (moveItem (sortDesc ls) di ti).Perm ls :=
      (moveItem_perm _ di ti hdi2).trans (sortDesc_perm ls)
    have hids : ((moveItem (sortDesc ls) di ti).map (fun l => l.id)).Nodup :=
      (List.Perm.nodup_iff (hperm.map _)).mpr hnd
    have hkeys : ((dropPairs (moveItem (sortDesc ls) di ti).length 0
        (moveItem (sortDesc ls) di ti)).map Prod.fst).Nodup := by
      rw [dropPairs_map_fst]; exact hids
    have hdrop : handleDrop ls di ti
        = foldOrderUpdates (dropPairs (moveItem (sortDesc ls) di ti).length 0
            (moveItem (sortDesc ls) di ti)) ls := by
      simp only [handleDrop, if_neg hne]
    rw [hdrop, foldOrderUpdates_eq_map _ _ hkeys]
    have hstep : ((ls.map (applyFirstOrder (dropPairs (moveItem (sortDesc ls) di ti).length 0
        (moveItem (sortDesc ls) di ti)))).map (fun l => l.order)).Perm
        (((moveItem (sortDesc ls) di ti).map
            (applyFirstOrder (dropPairs (moveItem (sortDesc ls) di ti).length 0
              (moveItem (sortDesc ls) di ti)))).map (fun l => l.order)) :=
      (hperm.map _).symm.map _
    refine hstep.trans ?_
    rw [map_applyFirstOrder_dropPairs _ _ _ hids, dropPairs_map_snd,
      moveItem_length _ di ti hdi2, sortDesc_length]
    have heq : ((List.range ls.length).map
        (fun (k : Nat) => some ((ls.length : Int) - 1 - ((0 : Nat) : Int) - (k : Int))))
        = ((List.range ls.length).map (fun (k : Nat) => some ((ls.length : Int) - 1 - (k : Int)))) := by
      apply List.map_congr_left
      intro k _
      norm_num
    rw [heq]
    exact range_desc_perm ls.length

/-- C10 witness: the store reorder renumbers the concrete two-layer stack
and a drag of the top row to the bottom renumbers the concrete three-layer
stack. -/
theorem C10_reorders_renumber_contiguously_witness :
    (reorderLayers sampleState 0 1).layers.map (fun l => l.order)
      = (List.range sampleState.layers.length).map (fun (k : Nat) => some ((k : Int))) ∧
    ((handleDrop [layerBg, layerOne, layerTwo] 0 2).map (fun l => l.order)).Perm
      ((List.range ([layerBg, layerOne, layerTwo] : List Layer).length).map
        (fun (k : Nat) => some ((k : Int)))) :=
  ⟨C10_reorders_renumber_contiguously.1 sampleState 0 1 (by decide),
   C10_reorders_renumber_contiguously.2 [layerBg, layerOne, layerTwo] 0 2
     (by decide) (by decide) (by decide)⟩

end Paintshop
